import Mathlib

/-!
# Verification of the wage-calculator engine (`src/js/keisan.js`)

Shallow embedding of the calculation core of `keisan.js`:

* `validateTimeFormat`  — the regex `^([0-1][0-9]|2[0-3]):[0-5][0-9]$` test;
* `timeToDecimal`       — `split(':')` + `parseInt(_, 10)` + range check,
  returning `Option ℚ` where `none` models the JavaScript `NaN` result;
* `calculateWage`       — the main function: time validation, rate check,
  duration with midnight rollover, the 15-minute bucketed night sweep, and
  pay aggregation.  The DOM reads/writes are outside the engine: the three
  inputs become parameters (the already-`parseFloat`ed rate as `Option ℚ`,
  `none` modelling `NaN`; the two `.trim()`ed time strings), and the
  rendered result becomes an `Except` value.

Numbers are modelled exactly over `ℚ`.  All concrete values appearing in the
claims (whole hours and multiples of the 0.25 bucket) are exact in binary
floating point as well, and the loop counter `0, 0.25, 0.5, …` is exact in
IEEE doubles, so the rational model agrees with the JavaScript evaluation on
every input used below.  JavaScript characters are modelled through their
code points (`Char.toNat`); `%` on the non-negative operands that occur here
agrees with the mathematical `x - 24*⌊x/24⌋`.
-/

namespace Keisan

/-- Code-point test for an ASCII digit `0`–`9` (codes 48–57). -/
def isDigitChar (c : Char) : Bool := 48 ≤ c.toNat && c.toNat ≤ 57

/-- Whitespace skipped by JavaScript `parseInt` before the number
(tab, LF, VT, FF, CR, space). -/
def isJsSpace (c : Char) : Bool :=
  c.toNat == 9 || c.toNat == 10 || c.toNat == 11 || c.toNat == 12 ||
  c.toNat == 13 || c.toNat == 32

/-- Model of JavaScript `String.prototype.split` with a one-character
separator, on the character list of the string.  `"".split(sep)` is `[""]`,
and separators at the ends produce empty parts, as in JavaScript. -/
def splitOnChar (sep : Char) : List Char → List (List Char)
  | [] => [[]]
  | c :: rest =>
    if c.toNat == sep.toNat then [] :: splitOnChar sep rest
    else
      match splitOnChar sep rest with
      | [] => [[c]]
      | part :: parts => (c :: part) :: parts

/-- Numeric value of a list of digit characters, most significant first. -/
def digitListVal (ds : List Char) : ℕ :=
  ds.foldl (fun acc c => 10 * acc + (c.toNat - 48)) 0

/-- The digit-prefix part of `parseInt`: value of the longest leading run of
digits, `none` (`NaN`) when there is none. -/
def digitsToInt (l : List Char) : Option ℤ :=
  let ds := l.takeWhile isDigitChar
  if ds.isEmpty then none else some (digitListVal ds)

/-- Model of JavaScript `parseInt(s, 10)`: skip leading whitespace, optional
sign, then the longest digit prefix; `NaN` (= `none`) if no digit follows. -/
def jsParseInt (l : List Char) : Option ℤ :=
  match l.dropWhile isJsSpace with
  | [] => none
  | c :: rest =>
    if c.toNat == 45 then (digitsToInt rest).map (fun n => -n)
    else if c.toNat == 43 then digitsToInt rest
    else digitsToInt (c :: rest)

/-- `timeToDecimal` (keisan.js, Function 3): split on `':'`, require exactly
two parts, `parseInt` each, reject out-of-range hours/minutes, and return
`hours + minutes/60`.  `none` models the `NaN` returns. -/
def timeToDecimal (timeString : String) : Option ℚ :=
  match splitOnChar ':' timeString.data with
  | [hoursPart, minutesPart] =>
    match jsParseInt hoursPart, jsParseInt minutesPart with
    | some hours, some minutes =>
      if hours < 0 ∨ hours > 23 ∨ minutes < 0 ∨ minutes > 59 then none
      else some ((hours : ℚ) + (minutes : ℚ) / 60)
    | _, _ => none
  | _ => none

/-- `validateTimeFormat` (keisan.js, Function 4): the anchored regex
`^([0-1][0-9]|2[0-3]):[0-5][0-9]$`.  Anchoring forces exactly five
characters; the alternation is spelled out on code points
(`'0'`=48 … `'9'`=57, `':'`=58). -/
def validateTimeFormat (timeString : String) : Bool :=
  match timeString.data with
  | [h1, h2, c, m1, m2] =>
    decide
      ((((48 ≤ h1.toNat ∧ h1.toNat ≤ 49) ∧ (48 ≤ h2.toNat ∧ h2.toNat ≤ 57)) ∨
        (h1.toNat = 50 ∧ (48 ≤ h2.toNat ∧ h2.toNat ≤ 51))) ∧
       c.toNat = 58 ∧
       (48 ≤ m1.toNat ∧ m1.toNat ≤ 53) ∧
       (48 ≤ m2.toNat ∧ m2.toNat ≤ 57))
  | _ => false

/-- The spec's description of the accepted shape (§4.1, claim C4): exactly
two digits, a colon, and two digits, whose decimal values encode an hour
00–23 and a minute 00–59.  Stated independently of the regex, for the
refinement proof `c4`. -/
def specTimeShape (timeString : String) : Bool :=
  match timeString.data with
  | [h1, h2, c, m1, m2] =>
    decide
      (isDigitChar h1 = true ∧ isDigitChar h2 = true ∧
       isDigitChar m1 = true ∧ isDigitChar m2 = true ∧
       c = ':' ∧
       10 * (h1.toNat - 48) + (h2.toNat - 48) ≤ 23 ∧
       10 * (m1.toNat - 48) + (m2.toNat - 48) ≤ 59)
  | _ => false

/-- The loop step of the night sweep: `0.25` hours (15 minutes). -/
def timeStep : ℚ := 1 / 4

/-- JavaScript `x % 24` for the non-negative `x` that occur in the sweep
(`startDecimal + currentTime`, always `≥ 0`). -/
def jsMod24 (x : ℚ) : ℚ := x - 24 * ⌊x / 24⌋

/-- The night-window test of the sweep body:
`currentHour >= 22 || currentHour < 5`. -/
def isNightHour (currentHour : ℚ) : Bool :=
  decide (22 ≤ currentHour) || decide (currentHour < 5)

/-- The accumulator of the Step-7 `for` loop after `n` iterations: the `k`-th
iteration samples `currentTime = k * 0.25` and adds `0.25` when
`(startDecimal + currentTime) % 24` lies in the night window. -/
def nightLoopAux (startDec : ℚ) : ℕ → ℚ
  | 0 => 0
  | n + 1 =>
    nightLoopAux startDec n +
      (if isNightHour (jsMod24 (startDec + n * timeStep)) then timeStep else 0)

/-- Number of iterations of `for (t = 0; t < totalHours; t += 0.25)`:
the number of naturals `k` with `k * 0.25 < totalHours`,
i.e. `⌈totalHours / 0.25⌉` clamped at zero. -/
def bucketCount (totalHours : ℚ) : ℕ := (⌈totalHours / timeStep⌉).toNat

/-- The full Step-7 sweep: `nightHours` accumulated over all iterations. -/
def nightHoursOf (startDec totalHours : ℚ) : ℚ :=
  nightLoopAux startDec (bucketCount totalHours)

/-- Step 6 of `calculateWage`: elapsed hours with midnight rollover. -/
def computeDuration (startTimeDecimal endTimeDecimal : ℚ) : ℚ :=
  if endTimeDecimal ≥ startTimeDecimal then endTimeDecimal - startTimeDecimal
  else (24 - startTimeDecimal) + endTimeDecimal

/-- The failure modes of `calculateWage`, one per `alert`-and-return branch:
bad time format (Step 3), bad rate (Step 4), `NaN` after conversion
(Step 5). -/
inductive WageError where
  | invalidTimeFormat
  | invalidRate
  | invalidTime
deriving DecidableEq

/-- The result rendered in Step 10 (`totalPay` before the display-only
`Math.round`). -/
structure WageBreakdown where
  normalHours : ℚ
  nightHours : ℚ
  totalPay : ℚ
deriving DecidableEq

/-- `calculateWage` (keisan.js, Function 5), with the DOM reads replaced by
parameters: `baseWage` is the result of `parseFloat(baseWageInput)` (Step 2),
`none` modelling `NaN`; the time strings are the `.trim()`ed field values.
Steps 3–9 are the source's, in order. -/
def calculateWage (baseWage : Option ℚ) (startTimeInput endTimeInput : String) :
    Except WageError WageBreakdown :=
  let isStartTimeValid := validateTimeFormat startTimeInput
  let isEndTimeValid := validateTimeFormat endTimeInput
  if !isStartTimeValid || !isEndTimeValid then .error .invalidTimeFormat
  else
    match baseWage with
    | none => .error .invalidRate
    | some w =>
      if w ≤ 0 then .error .invalidRate
      else
        match timeToDecimal startTimeInput, timeToDecimal endTimeInput with
        | some startTimeDecimal, some endTimeDecimal =>
          let totalHours := computeDuration startTimeDecimal endTimeDecimal
          let nightHours := nightHoursOf startTimeDecimal totalHours
          let normalHours := totalHours - nightHours
          let normalPay := normalHours * w
          let nightPay := nightHours * w * (5 / 4)
          let totalPay := normalPay + nightPay
          .ok ⟨normalHours, nightHours, totalPay⟩
        | _, _ => .error .invalidTime

/-! ## Helper lemmas about the night sweep -/

theorem timeStep_pos : (0 : ℚ) < timeStep := by norm_num [timeStep]

/-- Each iteration adds `0` or `timeStep`, so `n` iterations accumulate at
most `n * timeStep`. -/
theorem nightLoopAux_le (startDec : ℚ) (n : ℕ) :
    nightLoopAux startDec n ≤ n * timeStep := by
  induction n with
  | zero => simp [nightLoopAux]
  | succ n ih =>
    rw [nightLoopAux]
    have h14 : timeStep = 1 / 4 := rfl
    have hn : (0 : ℚ) ≤ (n : ℚ) := Nat.cast_nonneg n
    push_cast
    rw [h14] at ih ⊢
    split <;> linarith

/-- The accumulator is always a natural multiple of the step. -/
theorem nightLoopAux_eq_mul (startDec : ℚ) (n : ℕ) :
    ∃ k : ℕ, k ≤ n ∧ nightLoopAux startDec n = k * timeStep := by
  induction n with
  | zero => exact ⟨0, le_rfl, by simp [nightLoopAux]⟩
  | succ n ih =>
    obtain ⟨k, hk, hval⟩ := ih
    rw [nightLoopAux]
    split
    · exact ⟨k + 1, by omega, by rw [hval]; push_cast; ring⟩
    · exact ⟨k, by omega, by rw [hval]; ring⟩

/-- The `k`-th iteration runs exactly when its sample `k * 0.25` is below
`totalHours`: the natural-number reindexing of the `while` condition. -/
theorem lt_bucketCount_iff (totalHours : ℚ) (k : ℕ) :
    k < bucketCount totalHours ↔ (k : ℚ) * timeStep < totalHours := by
  rw [bucketCount, Int.lt_toNat]
  rw [show ((k : ℕ) : ℤ) = (k : ℤ) from rfl, Int.lt_ceil]
  rw [lt_div_iff₀ timeStep_pos]
  push_cast
  tauto

theorem bucketCount_le (totalHours : ℚ) (h : totalHours ≤ 24) :
    bucketCount totalHours ≤ 96 := by
  rw [bucketCount]
  have : ⌈totalHours / timeStep⌉ ≤ 96 := by
    rw [Int.ceil_le, timeStep]
    push_cast
    linarith
  omega

theorem bucketCount_natCast_mul (m : ℕ) :
    bucketCount ((m : ℚ) * timeStep) = m := by
  rw [bucketCount, mul_div_assoc, div_self timeStep_pos.ne.symm, mul_one]
  rw [Int.ceil_natCast]
  exact Int.toNat_natCast m

/-! ## Helper lemmas about parsing -/

theorem isJsSpace_eq_false {c : Char} (h : 48 ≤ c.toNat) : isJsSpace c = false := by
  simp only [isJsSpace, Bool.or_eq_false_iff, beq_eq_false_iff_ne, ne_eq]
  omega

theorem isDigitChar_eq_true {c : Char} (h1 : 48 ≤ c.toNat) (h2 : c.toNat ≤ 57) :
    isDigitChar c = true := by
  simp only [isDigitChar, Bool.and_eq_true, decide_eq_true_iff]
  omega

/-- Splitting a five-character list whose only colon is in the middle. -/
theorem splitOnChar_five (c0 c1 c2 c3 c4 : Char)
    (h0 : c0.toNat ≠ 58) (h1 : c1.toNat ≠ 58) (h2 : c2.toNat = 58)
    (h3 : c3.toNat ≠ 58) (h4 : c4.toNat ≠ 58) :
    splitOnChar ':' [c0, c1, c2, c3, c4] = [[c0, c1], [c3, c4]] := by
  have hcolon : (':').toNat = 58 := rfl
  simp only [splitOnChar, hcolon, Nat.beq_eq_true_eq]
  rw [if_neg h0, if_neg h1, if_pos h2, if_neg h3, if_neg h4]

/-- `parseInt` of a two-digit string is its decimal value. -/
theorem jsParseInt_two_digits (a b : Char)
    (ha1 : 48 ≤ a.toNat) (ha2 : a.toNat ≤ 57)
    (hb1 : 48 ≤ b.toNat) (hb2 : b.toNat ≤ 57) :
    jsParseInt [a, b] =
      some ((10 * (a.toNat - 48) + (b.toNat - 48) : ℕ) : ℤ) := by
  have hda := isDigitChar_eq_true ha1 ha2
  have hdb := isDigitChar_eq_true hb1 hb2
  simp only [jsParseInt, List.dropWhile, isJsSpace_eq_false ha1]
  rw [if_neg (by simp [Nat.beq_eq_true_eq]; omega),
      if_neg (by simp [Nat.beq_eq_true_eq]; omega)]
  simp only [digitsToInt, List.takeWhile, hda, hdb, List.isEmpty, digitListVal,
    List.foldl]
  norm_num

/-- On every string accepted by `validateTimeFormat`, `timeToDecimal`
succeeds and returns `hours + minutes/60` for in-range hour and minute. -/
theorem timeToDecimal_of_valid (s : String) (h : validateTimeFormat s = true) :
    ∃ hrs mins : ℕ, hrs ≤ 23 ∧ mins ≤ 59 ∧
      timeToDecimal s = some ((hrs : ℚ) + (mins : ℚ) / 60) := by
  rcases hsd : s.data with _ | ⟨c0, _ | ⟨c1, _ | ⟨c2, _ | ⟨c3, _ | ⟨c4, _ | ⟨c5, rest⟩⟩⟩⟩⟩⟩ <;>
    rw [validateTimeFormat, hsd] at h <;>
    simp only [decide_eq_true_iff, Bool.false_eq_true] at h
  obtain ⟨hh, hc, hm1, hm2⟩ := h
  refine ⟨10 * (c0.toNat - 48) + (c1.toNat - 48),
          10 * (c3.toNat - 48) + (c4.toNat - 48), by omega, by omega, ?_⟩
  have hsp := splitOnChar_five c0 c1 c2 c3 c4 (by omega) (by omega) hc
    (by omega) (by omega)
  have hp1 := jsParseInt_two_digits c0 c1 (by omega) (by omega) (by omega)
    (by omega)
  have hp2 := jsParseInt_two_digits c3 c4 (by omega) (by omega) (by omega)
    (by omega)
  simp only [timeToDecimal, hsd, hsp, hp1, hp2]
  rw [if_neg (by push_cast; omega)]
  simp only [Option.some.injEq, Int.cast_natCast]

/-- Bounds form of `timeToDecimal_of_valid`: the decimal value lies in
`[0, 24)`. -/
theorem timeToDecimal_mem_Ico (s : String) (h : validateTimeFormat s = true) :
    ∃ sd : ℚ, timeToDecimal s = some sd ∧ 0 ≤ sd ∧ sd < 24 := by
  obtain ⟨hrs, mins, hh, hm, heq⟩ := timeToDecimal_of_valid s h
  refine ⟨_, heq, by positivity, ?_⟩
  have h1 : (hrs : ℚ) ≤ 23 := by exact_mod_cast hh
  have h2 : (mins : ℚ) ≤ 59 := by exact_mod_cast hm
  linarith

/-- Evaluation scheme for `timeToDecimal` at concrete strings: the split and
the two `parseInt`s are checked by kernel computation, leaving only the
rational result. -/
theorem timeToDecimal_eval (s : String) (a b c d : Char) (x y : ℤ)
    (hs : splitOnChar ':' s.data = [[a, b], [c, d]])
    (hx : jsParseInt [a, b] = some x) (hy : jsParseInt [c, d] = some y)
    (hxr : 0 ≤ x ∧ x ≤ 23) (hyr : 0 ≤ y ∧ y ≤ 59) :
    timeToDecimal s = some ((x : ℚ) + (y : ℚ) / 60) := by
  simp only [timeToDecimal, hs, hx, hy]
  rw [if_neg (by omega)]

theorem computeDuration_bounds (sd ed : ℚ)
    (hsd : 0 ≤ sd ∧ sd < 24) (hed : 0 ≤ ed ∧ ed < 24) :
    0 ≤ computeDuration sd ed ∧ computeDuration sd ed < 24 := by
  rw [computeDuration]
  split <;> constructor <;> linarith [hsd.1, hsd.2, hed.1, hed.2]

/-- The success path of `calculateWage`, spelled out: with valid times and a
positive rate the result is built from the duration and the night sweep. -/
theorem calculateWage_ok (w : ℚ) (s e : String) (sd ed : ℚ)
    (hs : validateTimeFormat s = true) (he : validateTimeFormat e = true)
    (hw : 0 < w)
    (hsd : timeToDecimal s = some sd) (hed : timeToDecimal e = some ed) :
    calculateWage (some w) s e =
      .ok ⟨computeDuration sd ed - nightHoursOf sd (computeDuration sd ed),
           nightHoursOf sd (computeDuration sd ed),
           (computeDuration sd ed - nightHoursOf sd (computeDuration sd ed)) * w
             + nightHoursOf sd (computeDuration sd ed) * w * (5 / 4)⟩ := by
  simp only [calculateWage, hs, he, hsd, hed, Bool.not_true, Bool.or_self,
    Bool.false_eq_true, if_false]
  rw [if_neg (not_le.mpr hw)]

theorem char_toNat_eq_colon_iff (c : Char) : c.toNat = 58 ↔ c = ':' :=
  ⟨fun h => Char.ext (UInt32.ext (h.trans rfl)), fun h => by subst h; rfl⟩

/-! ## Claims -/

/-- C3: for start and end decimal hours in `[0, 24)`, the duration is
`end - start` when `end ≥ start` and `(24 - start) + end` on midnight
rollover; it always lies in `[0, 24)`; and the decimals of `"22:00"` and
`"06:00"` give `totalHours = 8`. -/
theorem c3_duration_rollover (sd ed : ℚ)
    (hsd : 0 ≤ sd ∧ sd < 24) (hed : 0 ≤ ed ∧ ed < 24) :
    (ed ≥ sd → computeDuration sd ed = ed - sd) ∧
    (ed < sd → computeDuration sd ed = (24 - sd) + ed) ∧
    0 ≤ computeDuration sd ed ∧ computeDuration sd ed < 24 ∧
    timeToDecimal "22:00" = some 22 ∧ timeToDecimal "06:00" = some 6 ∧
    computeDuration 22 6 = 8 := by
  refine ⟨fun h => by rw [computeDuration, if_pos h],
          fun h => by rw [computeDuration, if_neg (not_le.mpr h)],
          (computeDuration_bounds sd ed hsd hed).1,
          (computeDuration_bounds sd ed hsd hed).2, ?_, ?_, ?_⟩
  · rw [timeToDecimal_eval "22:00" '2' '2' '0' '0' 22 0 (by decide) (by decide)
      (by decide) (by decide) (by decide)]
    norm_num
  · rw [timeToDecimal_eval "06:00" '0' '6' '0' '0' 6 0 (by decide) (by decide)
      (by decide) (by decide) (by decide)]
    norm_num
  · rw [computeDuration, if_neg (by norm_num)]
    norm_num

theorem c3_duration_rollover_witness :
    ((0 : ℚ) ≤ 22 ∧ (22 : ℚ) < 24) ∧ ((0 : ℚ) ≤ 6 ∧ (6 : ℚ) < 24) ∧
    computeDuration 22 6 = (24 - 22) + 6 :=
  ⟨⟨by norm_num, by norm_num⟩, ⟨by norm_num, by norm_num⟩,
    (c3_duration_rollover 22 6 ⟨by norm_num, by norm_num⟩
      ⟨by norm_num, by norm_num⟩).2.1 (by norm_num)⟩

/-- C4: the regex validation accepts a string exactly when it is two digits,
a colon, and two digits encoding an hour 00–23 and a minute 00–59
(`specTimeShape`, written from the spec's wording); the listed malformed
strings are all rejected. -/
theorem c4_validate_format_exact :
    (∀ s : String, validateTimeFormat s = specTimeShape s) ∧
    validateTimeFormat "24:00" = false ∧ validateTimeFormat "9:00" = false ∧
    validateTimeFormat "12:60" = false ∧ validateTimeFormat "abcd" = false ∧
    validateTimeFormat "" = false ∧ validateTimeFormat "09:00" = true := by
  refine ⟨fun s => ?_, by decide, by decide, by decide, by decide, by decide,
    by decide⟩
  rcases hsd : s.data with _ | ⟨c0, _ | ⟨c1, _ | ⟨c2, _ | ⟨c3, _ | ⟨c4, _ | ⟨c5, rest⟩⟩⟩⟩⟩⟩ <;>
    rw [validateTimeFormat, specTimeShape, hsd]
  rw [decide_eq_decide]
  rw [show (c2 = ':') = (c2.toNat = 58) from
    (propext (char_toNat_eq_colon_iff c2)).symm]
  simp only [isDigitChar, Bool.and_eq_true, decide_eq_true_iff]
  omega

theorem calculateWage_rate_error (w : Option ℚ) (s e : String)
    (hs : validateTimeFormat s = true) (he : validateTimeFormat e = true)
    (hw : w = none ∨ ∃ r, w = some r ∧ r ≤ 0) :
    calculateWage w s e = .error .invalidRate := by
  rcases hw with hw | ⟨r, hw, hr⟩ <;>
    subst hw <;>
    simp only [calculateWage, hs, he, Bool.not_true, Bool.or_self,
      Bool.false_eq_true, if_false]
  rw [if_pos hr]

theorem calculateWage_format_error (w : Option ℚ) (s e : String)
    (h : validateTimeFormat s = false ∨ validateTimeFormat e = false) :
    calculateWage w s e = .error .invalidTimeFormat := by
  rcases h with h | h <;>
    simp [calculateWage, h]

/-- C5: with both time strings valid, a rate that is `NaN` (`none`) or
parses to a value `≤ 0` makes `calculateWage` fail with `invalidRate` and
produce no wage result. -/
theorem c5_invalid_rate (w : Option ℚ) (s e : String)
    (hs : validateTimeFormat s = true) (he : validateTimeFormat e = true)
    (hw : w = none ∨ ∃ r, w = some r ∧ r ≤ 0) :
    calculateWage w s e = .error .invalidRate :=
  calculateWage_rate_error w s e hs he hw

theorem c5_invalid_rate_witness :
    validateTimeFormat "09:00" = true ∧ validateTimeFormat "17:00" = true ∧
    calculateWage (some 0) "09:00" "17:00" = .error .invalidRate :=
  ⟨by decide, by decide,
    c5_invalid_rate (some 0) "09:00" "17:00" (by decide) (by decide)
      (Or.inr ⟨0, rfl, le_rfl⟩)⟩

/-- C6: whenever either time string fails validation, `calculateWage`
returns `invalidTimeFormat`, regardless of the rate (so before the rate
check and any arithmetic), with no partial result. -/
theorem c6_invalid_time_first (w : Option ℚ) (s e : String)
    (h : validateTimeFormat s = false ∨ validateTimeFormat e = false) :
    calculateWage w s e = .error .invalidTimeFormat :=
  calculateWage_format_error w s e h

theorem c6_invalid_time_first_witness :
    validateTimeFormat "9:00" = false ∧
    calculateWage none "9:00" "17:00" = .error .invalidTimeFormat :=
  ⟨by decide,
    c6_invalid_time_first none "9:00" "17:00" (Or.inl (by decide))⟩

/-- C2: on every accepted input pair the breakdown satisfies
`normalHours + nightHours = totalHours` exactly (normal is derived by
subtraction) and `totalPay = normalHours*rate + nightHours*rate*1.25`. -/
theorem c2_pay_invariants (rate : ℚ) (s e : String) (sd ed : ℚ)
    (hr : 0 < rate)
    (hs : validateTimeFormat s = true) (he : validateTimeFormat e = true)
    (hsd : timeToDecimal s = some sd) (hed : timeToDecimal e = some ed) :
    ∃ b : WageBreakdown, calculateWage (some rate) s e = .ok b ∧
      b.normalHours + b.nightHours = computeDuration sd ed ∧
      b.totalPay = b.normalHours * rate + b.nightHours * rate * (5 / 4) := by
  refine ⟨_, calculateWage_ok rate s e sd ed hs he hr hsd hed, ?_, ?_⟩
  · simp only []
    ring
  · simp only []

theorem c2_pay_invariants_witness :
    ∃ b : WageBreakdown, calculateWage (some 1000) "09:00" "17:00" = .ok b ∧
      b.normalHours + b.nightHours = computeDuration 9 17 ∧
      b.totalPay = b.normalHours * 1000 + b.nightHours * 1000 * (5 / 4) :=
  c2_pay_invariants 1000 "09:00" "17:00" 9 17 (by norm_num) (by decide)
    (by decide)
    (by rw [timeToDecimal_eval "09:00" '0' '9' '0' '0' 9 0 (by decide)
          (by decide) (by decide) (by decide) (by decide)]; norm_num)
    (by rw [timeToDecimal_eval "17:00" '1' '7' '0' '0' 17 0 (by decide)
          (by decide) (by decide) (by decide) (by decide)]; norm_num)

/-- C8: a valid time used as both start and end yields a zero-length shift:
`totalHours = 0`, `nightHours = 0`, `totalPay = 0` — never 24 hours. -/
theorem c8_zero_length (s : String) (rate : ℚ)
    (hs : validateTimeFormat s = true) (hr : 0 < rate) :
    calculateWage (some rate) s s = .ok ⟨0, 0, 0⟩ := by
  obtain ⟨sd, hsd, -, -⟩ := timeToDecimal_mem_Ico s hs
  rw [calculateWage_ok rate s s sd sd hs hs hr hsd hsd]
  have hdur : computeDuration sd sd = 0 := by
    rw [computeDuration, if_pos le_rfl]
    ring
  have hnight : nightHoursOf sd 0 = 0 := by
    rw [nightHoursOf, show bucketCount 0 = 0 by norm_num [bucketCount]]
    simp [nightLoopAux]
  rw [hdur, hnight]
  norm_num

theorem c8_zero_length_witness :
    validateTimeFormat "09:00" = true ∧ (0 : ℚ) < 1000 ∧
    calculateWage (some 1000) "09:00" "09:00" = .ok ⟨0, 0, 0⟩ :=
  ⟨by decide, by norm_num,
    c8_zero_length "09:00" 1000 (by decide) (by norm_num)⟩

/-- C9: the night sweep terminates for every input: its iteration count
is the number of samples below `totalHours`, and since `totalHours < 24`
and the step is `0.25` it is at most `96`. -/
theorem c9_sweep_bounded (sd ed : ℚ)
    (hsd : 0 ≤ sd ∧ sd < 24) (hed : 0 ≤ ed ∧ ed < 24) :
    (∀ k : ℕ, k < bucketCount (computeDuration sd ed) ↔
      (k : ℚ) * timeStep < computeDuration sd ed) ∧
    bucketCount (computeDuration sd ed) ≤ 96 :=
  ⟨fun k => lt_bucketCount_iff (computeDuration sd ed) k,
    bucketCount_le _ (computeDuration_bounds sd ed hsd hed).2.le⟩

theorem c9_sweep_bounded_witness :
    ((0 : ℚ) ≤ 22 ∧ (22 : ℚ) < 24) ∧ ((0 : ℚ) ≤ 6 ∧ (6 : ℚ) < 24) ∧
    bucketCount (computeDuration 22 6) ≤ 96 :=
  ⟨⟨by norm_num, by norm_num⟩, ⟨by norm_num, by norm_num⟩,
    (c9_sweep_bounded 22 6 ⟨by norm_num, by norm_num⟩
      ⟨by norm_num, by norm_num⟩).2⟩

/-- C10: every string accepted by the validation converts to a decimal
value in `[0, 24)` (never `NaN`), and consequently the post-conversion
`NaN` branch of `calculateWage` is unreachable on every input. -/
theorem c10_conversion_never_nan (s : String)
    (hs : validateTimeFormat s = true) :
    (∃ q : ℚ, timeToDecimal s = some q ∧ 0 ≤ q ∧ q < 24) ∧
    ∀ (w : Option ℚ) (s' e' : String),
      calculateWage w s' e' ≠ .error .invalidTime := by
  refine ⟨timeToDecimal_mem_Ico s hs, fun w s' e' => ?_⟩
  by_cases hs' : validateTimeFormat s' = true
  · by_cases he' : validateTimeFormat e' = true
    · obtain ⟨sd, hsd, -, -⟩ := timeToDecimal_mem_Ico s' hs'
      obtain ⟨ed, hed, -, -⟩ := timeToDecimal_mem_Ico e' he'
      match w with
      | none =>
        rw [calculateWage_rate_error none s' e' hs' he' (Or.inl rfl)]
        simp
      | some r =>
        by_cases hr : r ≤ 0
        · rw [calculateWage_rate_error (some r) s' e' hs' he'
            (Or.inr ⟨r, rfl, hr⟩)]
          simp
        · rw [calculateWage_ok r s' e' sd ed hs' he' (not_le.mp hr) hsd hed]
          simp
    · rw [calculateWage_format_error w s' e' (Or.inr (by simpa using he'))]
      simp
  · rw [calculateWage_format_error w s' e' (Or.inl (by simpa using hs'))]
    simp

theorem c10_conversion_never_nan_witness :
    (∃ q : ℚ, timeToDecimal "09:00" = some q ∧ 0 ≤ q ∧ q < 24) ∧
    ∀ (w : Option ℚ) (s' e' : String),
      calculateWage w s' e' ≠ .error .invalidTime :=
  c10_conversion_never_nan "09:00" (by decide)

/-- C7: rate 1000, start `"23:00"`, end `"04:00"`: the duration is 5 hours,
the sampled hours 23, 0, 1, 2, 3 are all in the night window, the sweep
returns 5 night hours, and the pay is `1000 * 5 * 1.25 = 6250`. -/
theorem c7_night_only_shift :
    timeToDecimal "23:00" = some 23 ∧ timeToDecimal "04:00" = some 4 ∧
    computeDuration 23 4 = 5 ∧
    (isNightHour 23 && isNightHour 0 && isNightHour 1 && isNightHour 2 &&
      isNightHour 3) = true ∧
    nightHoursOf 23 5 = 5 ∧
    calculateWage (some 1000) "23:00" "04:00" = .ok ⟨0, 5, 6250⟩ := by
  have h1 : timeToDecimal "23:00" = some 23 := by
    rw [timeToDecimal_eval "23:00" '2' '3' '0' '0' 23 0 (by decide) (by decide)
      (by decide) (by decide) (by decide)]
    norm_num
  have h2 : timeToDecimal "04:00" = some 4 := by
    rw [timeToDecimal_eval "04:00" '0' '4' '0' '0' 4 0 (by decide) (by decide)
      (by decide) (by decide) (by decide)]
    norm_num
  have hdur : computeDuration 23 4 = 5 := by
    rw [computeDuration, if_neg (by norm_num)]
    norm_num
  have hnight : nightHoursOf 23 5 = 5 := by
    norm_num [nightHoursOf, bucketCount, timeStep, nightLoopAux, jsMod24,
      isNightHour]
  refine ⟨h1, h2, hdur, by norm_num [isNightHour], hnight, ?_⟩
  rw [calculateWage_ok 1000 "23:00" "04:00" 23 4 (by decide) (by decide)
    (by norm_num) h1 h2, hdur, hnight]
  norm_num

/-- C1, counterexample: start `"23:00"`, end `"23:06"` is a valid input pair
whose duration is `0.1` hours, yet the sweep classifies the single sampled
bucket as night and returns `nightHours = 0.25 > totalHours`, making the
derived `normalHours` negative. -/
theorem c1_night_partition_counterexample :
    validateTimeFormat "23:00" = true ∧ validateTimeFormat "23:06" = true ∧
    timeToDecimal "23:00" = some 23 ∧
    timeToDecimal "23:06" = some (231 / 10) ∧
    computeDuration 23 (231 / 10) = 1 / 10 ∧
    nightHoursOf 23 (1 / 10) = 1 / 4 ∧
    ¬ nightHoursOf 23 (1 / 10) ≤ 1 / 10 ∧
    calculateWage (some 1000) "23:00" "23:06" =
      .ok ⟨-(3 / 20), 1 / 4, 325 / 2⟩ ∧
    (-(3 / 20) : ℚ) < 0 := by
  have h1 : timeToDecimal "23:00" = some 23 := by
    rw [timeToDecimal_eval "23:00" '2' '3' '0' '0' 23 0 (by decide) (by decide)
      (by decide) (by decide) (by decide)]
    norm_num
  have h2 : timeToDecimal "23:06" = some (231 / 10) := by
    rw [timeToDecimal_eval "23:06" '2' '3' '0' '6' 23 6 (by decide) (by decide)
      (by decide) (by decide) (by decide)]
    norm_num
  have hdur : computeDuration 23 (231 / 10) = 1 / 10 := by
    rw [computeDuration, if_pos (by norm_num)]
    norm_num
  have hbc : bucketCount (1 / 10) = 1 := by
    rw [bucketCount, show (⌈(1 / 10 : ℚ) / timeStep⌉ : ℤ) = 1 from by
      rw [Int.ceil_eq_iff]
      norm_num [timeStep]]
    rfl
  have hnight : nightHoursOf 23 (1 / 10) = 1 / 4 := by
    rw [nightHoursOf, hbc]
    norm_num [timeStep, nightLoopAux, jsMod24, isNightHour]
  refine ⟨by decide, by decide, h1, h2, hdur, hnight,
    by rw [hnight]; norm_num, ?_, by norm_num⟩
  rw [calculateWage_ok 1000 "23:00" "23:06" 23 (231 / 10) (by decide)
    (by decide) (by norm_num) h1 h2, hdur, hnight]
  norm_num

/-- C1 (amended): `nightHours` is always a non-negative integer multiple of
the `0.25` bucket and is bounded by the number of sampled buckets times the
bucket size, `0.25 * ⌈totalHours / 0.25⌉`; whenever `totalHours` is itself
an integer multiple of the bucket size — in particular for every shift whose
minutes are multiples of 15 — this gives `0 ≤ nightHours ≤ totalHours`.
For a `totalHours` with a sub-bucket remainder the last bucket can overshoot,
so `nightHours ≤ totalHours` does not hold in general
(`c1_night_partition_counterexample`). -/
theorem c1_night_partition_amended (startDec totalHours : ℚ) :
    (∃ k : ℕ, nightHoursOf startDec totalHours = (k : ℚ) * timeStep) ∧
    nightHoursOf startDec totalHours ≤
      (bucketCount totalHours : ℚ) * timeStep ∧
    ∀ m : ℕ, totalHours = (m : ℚ) * timeStep →
      0 ≤ nightHoursOf startDec totalHours ∧
      nightHoursOf startDec totalHours ≤ totalHours := by
  obtain ⟨k, hk, hval⟩ := nightLoopAux_eq_mul startDec (bucketCount totalHours)
  refine ⟨⟨k, hval⟩, nightLoopAux_le startDec (bucketCount totalHours),
    fun m hm => ⟨?_, ?_⟩⟩
  · rw [nightHoursOf, hval]
    exact mul_nonneg (Nat.cast_nonneg k) timeStep_pos.le
  · rw [hm, nightHoursOf, bucketCount_natCast_mul]
    exact nightLoopAux_le startDec m

theorem c1_night_partition_amended_witness :
    (1 / 2 : ℚ) = ((2 : ℕ) : ℚ) * timeStep ∧
    0 ≤ nightHoursOf 23 (1 / 2) ∧ nightHoursOf 23 (1 / 2) ≤ 1 / 2 := by
  have h := c1_night_partition_amended 23 (1 / 2)
  have hm : (1 / 2 : ℚ) = ((2 : ℕ) : ℚ) * timeStep := by
    norm_num [timeStep]
  exact ⟨hm, (h.2.2 2 hm).1, (h.2.2 2 hm).2⟩

end Keisan
